import Mathlib

/-!
Verification development for `online_modeling.py` (sysid-l2fly).

The file shallowly embeds the `MemoryBuffer` class and the relevant parts of
`ThreadingModeling` from `src/online_modeling.py`.  Numpy float32 vectors are
modelled as `List Int` (exact arithmetic); the fixed-size numpy record arrays
`buffer` and `val_data` become Lean lists of `Experience` whose length is the
array size; `np.random.randint` takes the drawn randomness as an explicit
argument and returns `Except` so that its `ValueError` on `low >= high` is
visible; wall-clock durations in the cadence logic are `Rat`.
-/

deriving instance DecidableEq for Except

/-- One record of the numpy buffers: `data_in` holds
`hstack([current_state, control])`, `data_out` holds
`next_state - current_state` (elementwise). -/
structure Experience where
  data_in : List Int
  data_out : List Int
deriving DecidableEq

/-- A zero record, as created by `np.zeros` for the buffer arrays. -/
def Experience.zero (n_inputs n_outputs : Nat) : Experience :=
  ⟨List.replicate n_inputs 0, List.replicate n_outputs 0⟩

/-- The experience record that `add_to_buffer` builds from one call:
input `np.hstack([current_state, control])`, output
`next_state - current_state`. -/
def mkExperience (current_state control next_state : List Int) : Experience :=
  ⟨current_state ++ control, List.zipWith (fun a b => a - b) next_state current_state⟩

/-- State of `MemoryBuffer` (`src/online_modeling.py`, lines 65-95). -/
structure MemoryBuffer where
  n_states : Nat
  n_controls : Nat
  n_inputs : Nat
  n_outputs : Nat
  buffer_size : Nat
  val_data_size : Nat
  buffer : List Experience
  buffer_counter : Nat
  buffer_filled : Bool
  val_data : List Experience
  val_data_counter : Nat
  val_data_filled : Bool
deriving DecidableEq

/-- `MemoryBuffer.__init__`: fresh buffer with both arrays zeroed, both
counters 0 and both flags False. -/
def MemoryBuffer.init (n_states n_controls buffer_size val_data_size : Nat) :
    MemoryBuffer where
  n_states := n_states
  n_controls := n_controls
  n_inputs := n_states + n_controls
  n_outputs := n_states
  buffer_size := buffer_size
  val_data_size := val_data_size
  buffer := List.replicate buffer_size (Experience.zero (n_states + n_controls) n_states)
  buffer_counter := 0
  buffer_filled := false
  val_data := List.replicate val_data_size (Experience.zero (n_states + n_controls) n_states)
  val_data_counter := 0
  val_data_filled := false

/-- `MemoryBuffer.add_to_buffer` (lines 97-139): while the validation set is
not yet filled the experience goes to `val_data` at `val_data_counter`, the
counter is bumped and the flag raised when it reaches `val_data_size`;
afterwards the experience goes to the memory buffer, resetting
`buffer_counter` to 0 and raising `buffer_filled` first whenever the counter
has reached `buffer_size`. -/
def MemoryBuffer.add_to_buffer (m : MemoryBuffer)
    (current_state control next_state : List Int) : MemoryBuffer :=
  if m.val_data_filled = false then
    let newVal := m.val_data.set m.val_data_counter
      (mkExperience current_state control next_state)
    if m.val_data_counter + 1 = m.val_data_size then
      { m with val_data := newVal, val_data_counter := m.val_data_counter + 1,
               val_data_filled := true }
    else
      { m with val_data := newVal, val_data_counter := m.val_data_counter + 1 }
  else
    let m1 := if m.buffer_size ≤ m.buffer_counter
              then { m with buffer_counter := 0, buffer_filled := true }
              else m
    { m1 with buffer := m1.buffer.set m1.buffer_counter
                (mkExperience current_state control next_state),
              buffer_counter := m1.buffer_counter + 1 }

/-- `np.random.randint(low, high)` with the drawn randomness `r` explicit:
raises `ValueError` when `low >= high`, otherwise returns a value in
`[low, high)`. -/
def npRandint (low high : Int) (r : Nat) : Except String Int :=
  if low < high then Except.ok (low + (r : Int) % (high - low))
  else Except.error "ValueError"

/-- The contiguous slice `buffer[i:i+n]`, split into its `data_in` and
`data_out` columns as `generate_batch` returns it. -/
def MemoryBuffer.bufferSlice (m : MemoryBuffer) (i n : Nat) :
    List (List Int) × List (List Int) :=
  (((m.buffer.drop i).take n).map Experience.data_in,
   ((m.buffer.drop i).take n).map Experience.data_out)

/-- `MemoryBuffer.generate_batch` (lines 141-167): when the buffer is filled
the batch starts at `randint(0, buffer_size - batch_size)`; otherwise, when
`batch_size < buffer_counter`, at `randint(0, buffer_counter - batch_size)`;
otherwise it returns `(None, None)` (here `Except.ok none`).  A raising
`randint` propagates as `Except.error`. -/
def MemoryBuffer.generate_batch (m : MemoryBuffer) (batch_size r : Nat) :
    Except String (Option (List (List Int) × List (List Int))) :=
  if m.buffer_filled = true then
    match npRandint 0 ((m.buffer_size : Int) - (batch_size : Int)) r with
    | Except.error e => Except.error e
    | Except.ok initial_idx => Except.ok (some (m.bufferSlice initial_idx.toNat batch_size))
  else if batch_size < m.buffer_counter then
    match npRandint 0 ((m.buffer_counter : Int) - (batch_size : Int)) r with
    | Except.error e => Except.error e
    | Except.ok initial_idx => Except.ok (some (m.bufferSlice initial_idx.toNat batch_size))
  else
    Except.ok none

/-- `ThreadingModeling.predict_next_states` (lines 347-358), with the neural
network abstracted as a function `model` on input vectors:
`current_state + model(hstack([current_state, control]))`. -/
def predict_next_states (model : List Int → List Int)
    (current_state control : List Int) : List Int :=
  List.zipWith (fun a b => a + b) current_state (model (current_state ++ control))

/-- The data of one `model.fit` call inside `__update_model`: training batch
and validation arrays. -/
structure FitCall where
  train_in : List (List Int)
  train_out : List (List Int)
  val_in : List (List Int)
  val_out : List (List Int)
deriving DecidableEq

/-- One iteration of `ThreadingModeling.__update_model` (lines 235-267),
reduced to its fit decision: `generate_batch` is called first; `model.fit`
runs only when `val_data_filled` holds and the batch is not `None`, with the
batch as training data and the full `val_data` columns as validation data.
Returns `some` of the fit data when `fit` is called, `none` when it is not,
and `Except.error` when `generate_batch` raises. -/
def updateModelIter (m : MemoryBuffer) (batch_size r : Nat) :
    Except String (Option FitCall) :=
  match m.generate_batch batch_size r with
  | Except.error e => Except.error e
  | Except.ok batch =>
    if m.val_data_filled = true then
      match batch with
      | some (input_data, output_data) =>
          Except.ok (some ⟨input_data, output_data,
            m.val_data.map Experience.data_in, m.val_data.map Experience.data_out⟩)
      | none => Except.ok none
    else
      Except.ok none

/-- The sleep performed at the end of one `__update_model` iteration
(lines 269-273).  The timing block sits inside the
`if self.memory.val_data_filled:` branch, so no sleep happens while the
validation set is still being filled; otherwise the loop sleeps
`update_model_dt - time_compute` when the computation finished early. -/
def iterSleep (val_data_filled : Bool) (time_compute update_model_dt : Rat) : Rat :=
  if val_data_filled = true then
    if time_compute < update_model_dt then update_model_dt - time_compute else 0
  else 0

/-- A call argument triple `(current_state, control, next_state)`. -/
def Triple := List Int × List Int × List Int

/-- Apply a whole sequence of `add_to_buffer` calls in order. -/
def addAll (m : MemoryBuffer) (es : List Triple) : MemoryBuffer :=
  es.foldl (fun acc e => acc.add_to_buffer e.1 e.2.1 e.2.2) m

/-- Well-formedness of a `MemoryBuffer` state: positive sizes (the
constructor defaults are 100), arrays of the declared lengths, counters in
range and the validation flag meaning exactly "the validation counter
reached its size". -/
def MemoryBuffer.WF (m : MemoryBuffer) : Prop :=
  1 ≤ m.val_data_size ∧ 1 ≤ m.buffer_size ∧
  m.val_data.length = m.val_data_size ∧ m.buffer.length = m.buffer_size ∧
  m.val_data_counter ≤ m.val_data_size ∧ m.buffer_counter ≤ m.buffer_size ∧
  (m.val_data_filled = false → m.val_data_counter < m.val_data_size) ∧
  (m.val_data_filled = true → m.val_data_counter = m.val_data_size)

instance (m : MemoryBuffer) : Decidable m.WF := by
  unfold MemoryBuffer.WF; infer_instance

/-- Trace invariant: everything that holds of the state reached from a fresh
buffer after `k` calls to `add_to_buffer`. -/
def TraceInv (n_s n_c b v k : Nat) (m : MemoryBuffer) : Prop :=
  m.val_data_size = v ∧ m.buffer_size = b ∧
  m.val_data.length = v ∧ m.buffer.length = b ∧
  (m.val_data_filled = false → m.val_data_counter = k ∧ k < v) ∧
  (m.val_data_filled = true →
    m.val_data_counter = v ∧ v ≤ k ∧ v + m.buffer_counter ≤ k) ∧
  m.buffer_counter ≤ b ∧
  (m.buffer_filled = true → v + b ≤ k ∧ 1 ≤ m.buffer_counter) ∧
  (k ≤ v → m.buffer = List.replicate b (Experience.zero (n_s + n_c) n_s) ∧
    m.buffer_counter = 0 ∧ m.buffer_filled = false)

lemma addAll_append (m : MemoryBuffer) (es : List Triple) (e : Triple) :
    addAll m (es ++ [e]) = (addAll m es).add_to_buffer e.1 e.2.1 e.2.2 := by
  simp [addAll, List.foldl_append]

lemma TraceInv_init (n_s n_c b v : Nat) (hv : 1 ≤ v) :
    TraceInv n_s n_c b v 0 (MemoryBuffer.init n_s n_c b v) := by
  unfold TraceInv MemoryBuffer.init
  simp
  omega

lemma TraceInv_add (n_s n_c b v k : Nat) (hb : 1 ≤ b) (m : MemoryBuffer) (t : Triple)
    (h : TraceInv n_s n_c b v k m) :
    TraceInv n_s n_c b v (k + 1) (m.add_to_buffer t.1 t.2.1 t.2.2) := by
  obtain ⟨h1, h2, h3, h4, h5, h6, h7, h8, h9⟩ := h
  unfold TraceInv MemoryBuffer.add_to_buffer
  cases hvf : m.val_data_filled with
  | false =>
    obtain ⟨hc, hk⟩ := h5 hvf
    obtain ⟨hbuf, hbc, hbf⟩ := h9 (by omega)
    by_cases hfull : m.val_data_counter + 1 = m.val_data_size
    · simp only [hvf, if_true, hfull, if_pos, reduceIte]
      refine ⟨h1, h2, by simp [h3], h4, by simp, ?_, by omega, ?_, ?_⟩
      · intro _; refine ⟨by omega, by omega, by omega⟩
      · simp [hbf]
      · intro _; exact ⟨hbuf, hbc, hbf⟩
    · simp only [hvf, if_true, hfull, reduceIte]
      refine ⟨h1, h2, by simp [h3], h4, ?_, ?_, by omega, ?_, ?_⟩
      · intro _; exact ⟨by omega, by omega⟩
      · simp [hvf]
      · simp [hbf]
      · intro _; exact ⟨hbuf, hbc, hbf⟩
  | true =>
    obtain ⟨hcv, hvk, hvbc⟩ := h6 hvf
    by_cases hwrap : m.buffer_size ≤ m.buffer_counter
    · simp only [hvf, Bool.true_eq_false, if_false, hwrap, reduceIte]
      refine ⟨h1, h2, h3, by simp [h4], by simp, ?_, by omega, ?_, ?_⟩
      · intro _; exact ⟨hcv, by omega, by omega⟩
      · intro _; exact ⟨by omega, by omega⟩
      · intro hle; exfalso; omega
    · simp only [hvf, Bool.true_eq_false, if_false, hwrap, reduceIte]
      refine ⟨h1, h2, h3, by simp [h4], by simp [hvf], ?_, by omega, ?_, ?_⟩
      · intro _; exact ⟨hcv, by omega, by omega⟩
      · intro hbfl
        obtain ⟨hx, hy⟩ := h8 hbfl
        exact ⟨by omega, by omega⟩
      · intro hle; exfalso; omega

lemma TraceInv_addAll (n_s n_c b v : Nat) (hv : 1 ≤ v) (hb : 1 ≤ b) (es : List Triple) :
    TraceInv n_s n_c b v es.length (addAll (MemoryBuffer.init n_s n_c b v) es) := by
  induction es using List.reverseRecOn with
  | nil => exact TraceInv_init n_s n_c b v hv
  | append_singleton es e ih =>
      rw [addAll_append]
      simpa using TraceInv_add n_s n_c b v es.length hb _ e ih

lemma add_to_buffer_unfilled (m : MemoryBuffer) (c u n : List Int)
    (hvf : m.val_data_filled = false) :
    (m.add_to_buffer c u n).val_data
        = m.val_data.set m.val_data_counter (mkExperience c u n) ∧
    (m.add_to_buffer c u n).val_data_counter = m.val_data_counter + 1 ∧
    (m.add_to_buffer c u n).val_data_filled
        = decide (m.val_data_counter + 1 = m.val_data_size) ∧
    (m.add_to_buffer c u n).buffer = m.buffer ∧
    (m.add_to_buffer c u n).buffer_counter = m.buffer_counter ∧
    (m.add_to_buffer c u n).buffer_filled = m.buffer_filled := by
  unfold MemoryBuffer.add_to_buffer
  by_cases hfull : m.val_data_counter + 1 = m.val_data_size <;>
    simp [hvf, hfull]

lemma add_to_buffer_filled (m : MemoryBuffer) (c u n : List Int)
    (hvf : m.val_data_filled = true) :
    (m.add_to_buffer c u n).val_data = m.val_data ∧
    (m.add_to_buffer c u n).val_data_counter = m.val_data_counter ∧
    (m.add_to_buffer c u n).val_data_filled = m.val_data_filled ∧
    (m.add_to_buffer c u n).buffer
        = m.buffer.set (if m.buffer_size ≤ m.buffer_counter then 0 else m.buffer_counter)
            (mkExperience c u n) ∧
    (m.add_to_buffer c u n).buffer_counter
        = (if m.buffer_size ≤ m.buffer_counter then 0 else m.buffer_counter) + 1 ∧
    (m.add_to_buffer c u n).buffer_filled
        = (if m.buffer_size ≤ m.buffer_counter then true else m.buffer_filled) := by
  unfold MemoryBuffer.add_to_buffer
  by_cases hwrap : m.buffer_size ≤ m.buffer_counter <;>
    simp [hvf, hwrap]

/-- C1: starting from a fresh `MemoryBuffer`, the first `val_data_size`
experiences are written only to the validation array: as long as at most
`val_data_size` calls have happened the memory buffer is still all-zero and
`buffer_counter` is 0 while `val_data_counter` counts the calls; and every
call after the `val_data_size`-th writes only to the memory buffer (a single
entry), leaving `val_data` and `val_data_counter` unchanged. -/
theorem fill_order_val_before_buffer (n_s n_c b v : Nat) (hv : 1 ≤ v) (hb : 1 ≤ b)
    (es : List Triple) (e : Triple) :
    (es.length ≤ v →
      (addAll (MemoryBuffer.init n_s n_c b v) es).buffer
          = List.replicate b (Experience.zero (n_s + n_c) n_s) ∧
      (addAll (MemoryBuffer.init n_s n_c b v) es).buffer_counter = 0 ∧
      (addAll (MemoryBuffer.init n_s n_c b v) es).val_data_counter = es.length) ∧
    (v ≤ es.length →
      (addAll (MemoryBuffer.init n_s n_c b v) (es ++ [e])).val_data
          = (addAll (MemoryBuffer.init n_s n_c b v) es).val_data ∧
      (addAll (MemoryBuffer.init n_s n_c b v) (es ++ [e])).val_data_counter
          = (addAll (MemoryBuffer.init n_s n_c b v) es).val_data_counter ∧
      ∃ i, (addAll (MemoryBuffer.init n_s n_c b v) (es ++ [e])).buffer
          = ((addAll (MemoryBuffer.init n_s n_c b v) es).buffer).set i
              (mkExperience e.1 e.2.1 e.2.2)) := by
  have hinv := TraceInv_addAll n_s n_c b v hv hb es
  obtain ⟨h1, h2, h3, h4, h5, h6, h7, h8, h9⟩ := hinv
  constructor
  · intro hle
    obtain ⟨hbuf, hbc, hbf⟩ := h9 hle
    refine ⟨hbuf, hbc, ?_⟩
    cases hvf : (addAll (MemoryBuffer.init n_s n_c b v) es).val_data_filled with
    | false => exact (h5 hvf).1
    | true =>
        have := h6 hvf
        omega
  · intro hge
    have hvf : (addAll (MemoryBuffer.init n_s n_c b v) es).val_data_filled = true := by
      cases hvf : (addAll (MemoryBuffer.init n_s n_c b v) es).val_data_filled with
      | false => have := h5 hvf; omega
      | true => rfl
    rw [addAll_append]
    have hstep := add_to_buffer_filled (addAll (MemoryBuffer.init n_s n_c b v) es)
      e.1 e.2.1 e.2.2 hvf
    exact ⟨hstep.1, hstep.2.1, _, hstep.2.2.2.1⟩

/-- Witness for C1 at concrete inputs: sizes 1, one validation-phase call and
one buffer-phase call. -/
theorem fill_order_val_before_buffer_witness :
    (addAll (MemoryBuffer.init 1 1 1 1) [(([1],[2],[3]) : Triple)]).buffer
        = List.replicate 1 (Experience.zero 2 1) ∧
    (addAll (MemoryBuffer.init 1 1 1 1)
        ([(([1],[2],[3]) : Triple)] ++ [(([4],[5],[6]) : Triple)])).val_data
      = (addAll (MemoryBuffer.init 1 1 1 1) [(([1],[2],[3]) : Triple)]).val_data := by
  have h := fill_order_val_before_buffer 1 1 1 1 (by decide) (by decide)
    [(([1],[2],[3]) : Triple)] (([4],[5],[6]) : Triple)
  exact ⟨(h.1 (by decide)).1, (h.2 (by decide)).1⟩

/-- C2: once `buffer_counter` has reached `buffer_size` (validation set
already filled), the next `add_to_buffer` call wraps: it raises
`buffer_filled`, overwrites the oldest entry at index 0 and leaves
`buffer_counter` at 1 (reset to 0, then bumped by the write), and the buffer
still holds exactly `buffer_size` entries with `buffer_counter` in range. -/
theorem rolling_buffer_wraparound (m : MemoryBuffer) (c u n : List Int)
    (hwf : m.WF) (hvf : m.val_data_filled = true)
    (hc : m.buffer_counter = m.buffer_size) :
    (m.add_to_buffer c u n).buffer_filled = true ∧
    (m.add_to_buffer c u n).buffer_counter = 1 ∧
    (m.add_to_buffer c u n).buffer = m.buffer.set 0 (mkExperience c u n) ∧
    (m.add_to_buffer c u n).buffer.length = m.buffer_size ∧
    (m.add_to_buffer c u n).buffer_counter ≤ m.buffer_size := by
  obtain ⟨hv1, hb1, hlv, hlb, hcv, hcb, hu, hfl⟩ := hwf
  have hstep := add_to_buffer_filled m c u n hvf
  have hwrap : m.buffer_size ≤ m.buffer_counter := by omega
  rw [if_pos hwrap] at hstep
  refine ⟨?_, ?_, hstep.2.2.2.1, ?_, ?_⟩
  · rw [hstep.2.2.2.2.2, if_pos hwrap]
  · rw [hstep.2.2.2.2.1]
  · rw [hstep.2.2.2.1]; simp [hlb]
  · rw [hstep.2.2.2.2.1]; omega

/-- Witness for C2: a reachable state with `buffer_counter = buffer_size = 1`
whose next call wraps to index 0. -/
theorem rolling_buffer_wraparound_witness :
    ((addAll (MemoryBuffer.init 1 1 1 1)
        [(([1],[2],[3]) : Triple), (([4],[5],[6]) : Triple)]).add_to_buffer
          [7] [8] [9]).buffer_filled = true ∧
    ((addAll (MemoryBuffer.init 1 1 1 1)
        [(([1],[2],[3]) : Triple), (([4],[5],[6]) : Triple)]).add_to_buffer
          [7] [8] [9]).buffer_counter = 1 := by
  have h := rolling_buffer_wraparound
    (addAll (MemoryBuffer.init 1 1 1 1)
      [(([1],[2],[3]) : Triple), (([4],[5],[6]) : Triple)])
    [7] [8] [9] (by decide) (by decide) (by decide)
  exact ⟨h.1, h.2.1⟩

/-- C8: after any sequence of `add_to_buffer` calls from a fresh buffer the
counters stay within their array sizes, the arrays keep their lengths,
`val_data_filled` holds exactly when `val_data_counter = val_data_size`, and
`buffer_filled` holds only once the buffer has received `buffer_size`
experiences (which requires at least `val_data_size + buffer_size` calls). -/
theorem counter_flag_invariant (n_s n_c b v : Nat) (hv : 1 ≤ v) (hb : 1 ≤ b)
    (es : List Triple) :
    (addAll (MemoryBuffer.init n_s n_c b v) es).val_data_counter ≤ v ∧
    (addAll (MemoryBuffer.init n_s n_c b v) es).buffer_counter ≤ b ∧
    ((addAll (MemoryBuffer.init n_s n_c b v) es).val_data_filled = true ↔
      (addAll (MemoryBuffer.init n_s n_c b v) es).val_data_counter = v) ∧
    ((addAll (MemoryBuffer.init n_s n_c b v) es).buffer_filled = true →
      v + b ≤ es.length) ∧
    (addAll (MemoryBuffer.init n_s n_c b v) es).val_data.length = v ∧
    (addAll (MemoryBuffer.init n_s n_c b v) es).buffer.length = b := by
  obtain ⟨h1, h2, h3, h4, h5, h6, h7, h8, h9⟩ := TraceInv_addAll n_s n_c b v hv hb es
  refine ⟨?_, h7, ⟨?_, ?_⟩, fun hbf => (h8 hbf).1, h3, h4⟩
  · cases hvf : (addAll (MemoryBuffer.init n_s n_c b v) es).val_data_filled with
    | false => have := h5 hvf; omega
    | true => have := h6 hvf; omega
  · intro hvf; exact (h6 hvf).1
  · intro hcv
    cases hvf : (addAll (MemoryBuffer.init n_s n_c b v) es).val_data_filled with
    | false => have := h5 hvf; omega
    | true => rfl

/-- Witness for C8 at concrete inputs: sizes 1/1 and a three-call trace that
fills the validation set and wraps the buffer. -/
theorem counter_flag_invariant_witness :
    (addAll (MemoryBuffer.init 1 1 1 1)
      [(([1],[2],[3]) : Triple), (([4],[5],[6]) : Triple),
       (([7],[8],[9]) : Triple)]).val_data_counter ≤ 1 ∧
    ((addAll (MemoryBuffer.init 1 1 1 1)
      [(([1],[2],[3]) : Triple), (([4],[5],[6]) : Triple),
       (([7],[8],[9]) : Triple)]).buffer_filled = true →
      1 + 1 ≤ ([(([1],[2],[3]) : Triple), (([4],[5],[6]) : Triple),
       (([7],[8],[9]) : Triple)] : List Triple).length) := by
  have h := counter_flag_invariant 1 1 1 1 (by decide) (by decide)
    [(([1],[2],[3]) : Triple), (([4],[5],[6]) : Triple), (([7],[8],[9]) : Triple)]
  exact ⟨h.1, h.2.2.2.1⟩

/-- C10 counterexample: in the reachable state after two calls (all sizes 1)
`val_data_filled` is true and `buffer_counter = 1`, yet the next call changes
the buffer entry at index 0 ≠ `buffer_counter`: the wrap-around call does not
write at the pre-call `buffer_counter`. -/
theorem val_frame_counterexample :
    (addAll (MemoryBuffer.init 1 1 1 1)
      [(([1],[2],[3]) : Triple), (([4],[5],[6]) : Triple)]).val_data_filled = true ∧
    (addAll (MemoryBuffer.init 1 1 1 1)
      [(([1],[2],[3]) : Triple), (([4],[5],[6]) : Triple)]).buffer_counter = 1 ∧
    ((addAll (MemoryBuffer.init 1 1 1 1)
      [(([1],[2],[3]) : Triple), (([4],[5],[6]) : Triple)]).add_to_buffer
        [7] [8] [9]).buffer[0]?
      ≠ (addAll (MemoryBuffer.init 1 1 1 1)
      [(([1],[2],[3]) : Triple), (([4],[5],[6]) : Triple)]).buffer[0]? := by
  decide

/-- C10 amended: once `val_data_filled` is true, `add_to_buffer` leaves the
whole validation state unchanged and modifies only the single buffer entry at
the write index — `buffer_counter` when `buffer_counter < buffer_size`, and 0
on the wrap-around call when `buffer_counter` has reached `buffer_size` —
together with `buffer_counter` and `buffer_filled`; every other buffer entry
is unchanged. -/
theorem add_after_val_filled_frame (m : MemoryBuffer) (c u n : List Int)
    (hvf : m.val_data_filled = true) :
    (m.add_to_buffer c u n).val_data = m.val_data ∧
    (m.add_to_buffer c u n).val_data_counter = m.val_data_counter ∧
    (m.add_to_buffer c u n).val_data_filled = true ∧
    (m.add_to_buffer c u n).buffer = m.buffer.set
      (if m.buffer_size ≤ m.buffer_counter then 0 else m.buffer_counter)
      (mkExperience c u n) ∧
    (∀ j, j ≠ (if m.buffer_size ≤ m.buffer_counter then 0 else m.buffer_counter) →
      (m.add_to_buffer c u n).buffer[j]? = m.buffer[j]?) := by
  have hstep := add_to_buffer_filled m c u n hvf
  refine ⟨hstep.1, hstep.2.1, by rw [hstep.2.2.1, hvf], hstep.2.2.2.1, ?_⟩
  intro j hj
  rw [hstep.2.2.2.1]
  exact List.getElem?_set_ne (fun heq => hj heq.symm)

/-- Witness for C10 amended: a non-wrapping buffer write at index 0 with the
validation set already filled. -/
theorem add_after_val_filled_frame_witness :
    ((addAll (MemoryBuffer.init 1 1 2 1)
        [(([1],[2],[3]) : Triple)]).add_to_buffer [4] [5] [6]).val_data
      = (addAll (MemoryBuffer.init 1 1 2 1) [(([1],[2],[3]) : Triple)]).val_data ∧
    ((addAll (MemoryBuffer.init 1 1 2 1)
        [(([1],[2],[3]) : Triple)]).add_to_buffer [4] [5] [6]).buffer[1]?
      = (addAll (MemoryBuffer.init 1 1 2 1) [(([1],[2],[3]) : Triple)]).buffer[1]? := by
  have h := add_after_val_filled_frame
    (addAll (MemoryBuffer.init 1 1 2 1) [(([1],[2],[3]) : Triple)])
    [4] [5] [6] (by decide)
  exact ⟨h.1, h.2.2.2.2 1 (by decide)⟩

lemma zipWith_add_sub_cancel (c nx : List Int) (h : nx.length = c.length) :
    List.zipWith (fun a b => a + b) c (List.zipWith (fun a b => a - b) nx c) = nx := by
  induction c generalizing nx with
  | nil => cases nx with
    | nil => rfl
    | cons x xs => simp at h
  | cons a as ih =>
      cases nx with
      | nil => simp at h
      | cons x xs =>
          simp only [List.zipWith_cons_cons, List.cons.injEq]
          refine ⟨by ring, ih xs (by simpa using h)⟩

/-- C4: `add_to_buffer` stores `[current_state, control]` as input and
`next_state - current_state` as output (in the validation phase and in the
buffer phase alike), and `predict_next_states` returns `current_state` plus
the model output on `[current_state, control]`; hence a model that returns
exactly the stored delta reproduces the original `next_state`. -/
theorem state_delta_roundtrip (m : MemoryBuffer) (cur ctrl next : List Int)
    (model : List Int → List Int) (hlen : next.length = cur.length) :
    (mkExperience cur ctrl next).data_in = cur ++ ctrl ∧
    (mkExperience cur ctrl next).data_out
      = List.zipWith (fun a b => a - b) next cur ∧
    (m.val_data_filled = false →
      (m.add_to_buffer cur ctrl next).val_data
        = m.val_data.set m.val_data_counter (mkExperience cur ctrl next)) ∧
    (m.val_data_filled = true →
      ∃ i, (m.add_to_buffer cur ctrl next).buffer
        = m.buffer.set i (mkExperience cur ctrl next)) ∧
    predict_next_states model cur ctrl
      = List.zipWith (fun a b => a + b) cur (model (cur ++ ctrl)) ∧
    (model (cur ++ ctrl) = (mkExperience cur ctrl next).data_out →
      predict_next_states model cur ctrl = next) := by
  refine ⟨rfl, rfl, ?_, ?_, rfl, ?_⟩
  · intro hvf; exact (add_to_buffer_unfilled m cur ctrl next hvf).1
  · intro hvf; exact ⟨_, (add_to_buffer_filled m cur ctrl next hvf).2.2.2.1⟩
  · intro hmodel
    unfold predict_next_states
    rw [hmodel]
    exact zipWith_add_sub_cancel cur next hlen

/-- Witness for C4: a model that returns exactly the stored delta `[2]` for
the stored input `[1, 2]` makes `predict_next_states` return the original
`next_state = [3]`. -/
theorem state_delta_roundtrip_witness :
    predict_next_states (fun _ => [2]) [1] [2] = [3] := by
  have h := state_delta_roundtrip (MemoryBuffer.init 1 1 1 1) [1] [2] [3]
    (fun _ => [2]) (by decide)
  exact h.2.2.2.2.2 (by decide)

lemma npRandint_ok (h : Int) (r : Nat) (hpos : 0 < h) :
    npRandint 0 h r = Except.ok ((r % h.toNat : Nat) : Int) := by
  unfold npRandint
  rw [if_pos hpos]
  congr 1
  push_cast
  rw [Int.toNat_of_nonneg hpos.le]
  simp

/-- C3 counterexample: from a fresh buffer with all sizes 1, three calls make
`buffer_filled` true; `generate_batch(1)` then computes
`randint(0, buffer_size - batch_size) = randint(0, 0)`, which raises
`ValueError` instead of returning `(None, None)` or a batch. -/
theorem generate_batch_raises_counterexample :
    (addAll (MemoryBuffer.init 1 1 1 1)
      [(([1],[2],[3]) : Triple), (([4],[5],[6]) : Triple),
       (([7],[8],[9]) : Triple)]).buffer_filled = true ∧
    (addAll (MemoryBuffer.init 1 1 1 1)
      [(([1],[2],[3]) : Triple), (([4],[5],[6]) : Triple),
       (([7],[8],[9]) : Triple)]).generate_batch 1 0
      = Except.error "ValueError" := by
  decide

/-- C3 amended: provided `batch_size < buffer_size`, `generate_batch` never
raises: it returns either `(None, None)` or a contiguous slice of exactly
`batch_size` experiences whose indices all lie inside the written region
(`[0, buffer_size)` when `buffer_filled`, `[0, buffer_counter)` otherwise).
When `buffer_filled` is true and `batch_size ≥ buffer_size`, the `randint`
index computation raises `ValueError` (see the counterexample). -/
theorem generate_batch_bounds (m : MemoryBuffer) (batch_size r : Nat)
    (hwf : m.WF) (hbs : batch_size < m.buffer_size) :
    m.generate_batch batch_size r = Except.ok none ∨
    ∃ i : Nat,
      i + batch_size ≤ (if m.buffer_filled = true then m.buffer_size else m.buffer_counter) ∧
      m.generate_batch batch_size r = Except.ok (some (m.bufferSlice i batch_size)) ∧
      (m.bufferSlice i batch_size).1.length = batch_size ∧
      (m.bufferSlice i batch_size).2.length = batch_size := by
  obtain ⟨hv1, hb1, hlv, hlb, hcv, hcb, hun, hfl⟩ := hwf
  cases hbf : m.buffer_filled with
  | true =>
    right
    have hpos : (0 : Int) < (m.buffer_size : Int) - (batch_size : Int) := by omega
    have htn : ((m.buffer_size : Int) - (batch_size : Int)).toNat
        = m.buffer_size - batch_size := by omega
    have hmod : r % (m.buffer_size - batch_size) < m.buffer_size - batch_size :=
      Nat.mod_lt r (by omega)
    refine ⟨r % (m.buffer_size - batch_size), ?_, ?_, ?_, ?_⟩
    · rw [if_pos rfl]; omega
    · unfold MemoryBuffer.generate_batch
      rw [hbf, if_pos rfl, npRandint_ok _ r hpos, htn]
      simp only [Int.toNat_natCast]
    · simp [MemoryBuffer.bufferSlice]; omega
    · simp [MemoryBuffer.bufferSlice]; omega
  | false =>
    by_cases hlt : batch_size < m.buffer_counter
    · right
      have hpos : (0 : Int) < (m.buffer_counter : Int) - (batch_size : Int) := by omega
      have htn : ((m.buffer_counter : Int) - (batch_size : Int)).toNat
          = m.buffer_counter - batch_size := by omega
      have hmod : r % (m.buffer_counter - batch_size) < m.buffer_counter - batch_size :=
        Nat.mod_lt r (by omega)
      refine ⟨r % (m.buffer_counter - batch_size), ?_, ?_, ?_, ?_⟩
      · rw [if_neg (by simp)]; omega
      · unfold MemoryBuffer.generate_batch
        rw [hbf, if_neg (by simp), if_pos hlt, npRandint_ok _ r hpos, htn]
        simp only [Int.toNat_natCast]
      · simp [MemoryBuffer.bufferSlice]; omega
      · simp [MemoryBuffer.bufferSlice]; omega
    · left
      unfold MemoryBuffer.generate_batch
      rw [hbf, if_neg (by simp), if_neg hlt]

/-- Witness for C3 amended: a partially filled buffer (2 of 2 entries
written, not yet wrapped) with `batch_size = 1 < buffer_size = 2`. -/
theorem generate_batch_bounds_witness :
    (addAll (MemoryBuffer.init 1 1 2 1)
      [(([1],[2],[3]) : Triple), (([4],[5],[6]) : Triple),
       (([7],[8],[9]) : Triple)]).generate_batch 1 0 = Except.ok none ∨
    ∃ i : Nat,
      i + 1 ≤ (if (addAll (MemoryBuffer.init 1 1 2 1)
        [(([1],[2],[3]) : Triple), (([4],[5],[6]) : Triple),
         (([7],[8],[9]) : Triple)]).buffer_filled = true
        then (addAll (MemoryBuffer.init 1 1 2 1)
          [(([1],[2],[3]) : Triple), (([4],[5],[6]) : Triple),
           (([7],[8],[9]) : Triple)]).buffer_size
        else (addAll (MemoryBuffer.init 1 1 2 1)
          [(([1],[2],[3]) : Triple), (([4],[5],[6]) : Triple),
           (([7],[8],[9]) : Triple)]).buffer_counter) ∧
      (addAll (MemoryBuffer.init 1 1 2 1)
        [(([1],[2],[3]) : Triple), (([4],[5],[6]) : Triple),
         (([7],[8],[9]) : Triple)]).generate_batch 1 0
        = Except.ok (some ((addAll (MemoryBuffer.init 1 1 2 1)
          [(([1],[2],[3]) : Triple), (([4],[5],[6]) : Triple),
           (([7],[8],[9]) : Triple)]).bufferSlice i 1)) ∧
      ((addAll (MemoryBuffer.init 1 1 2 1)
        [(([1],[2],[3]) : Triple), (([4],[5],[6]) : Triple),
         (([7],[8],[9]) : Triple)]).bufferSlice i 1).1.length = 1 ∧
      ((addAll (MemoryBuffer.init 1 1 2 1)
        [(([1],[2],[3]) : Triple), (([4],[5],[6]) : Triple),
         (([7],[8],[9]) : Triple)]).bufferSlice i 1).2.length = 1 :=
  generate_batch_bounds _ 1 0 (by decide) (by decide)

/-- C9: `generate_batch` returns `(None, None)` exactly when the buffer is
not yet filled and `batch_size ≥ buffer_counter`; the comparison in the code
is strict, so `batch_size = buffer_counter` also yields `(None, None)` even
though exactly `batch_size` experiences are available (second conjunct), and
while the validation set is still being populated (`buffer_counter = 0`,
buffer not filled) every call yields `(None, None)`. -/
theorem generate_batch_none_iff (m : MemoryBuffer) (batch_size r : Nat) :
    (m.generate_batch batch_size r = Except.ok none ↔
      m.buffer_filled = false ∧ m.buffer_counter ≤ batch_size) ∧
    (m.buffer_filled = false →
      m.generate_batch m.buffer_counter r = Except.ok none) := by
  constructor
  · unfold MemoryBuffer.generate_batch
    cases hbf : m.buffer_filled with
    | true =>
      rw [if_pos rfl]
      constructor
      · intro h
        cases hr : npRandint 0 ((m.buffer_size : Int) - (batch_size : Int)) r with
        | error e => rw [hr] at h; simp at h
        | ok i => rw [hr] at h; simp at h
      · intro h
        exact absurd h.1 (by simp)
    | false =>
      rw [if_neg (by simp)]
      by_cases hlt : batch_size < m.buffer_counter
      · rw [if_pos hlt]
        constructor
        · intro h
          cases hr : npRandint 0 ((m.buffer_counter : Int) - (batch_size : Int)) r with
          | error e => rw [hr] at h; simp at h
          | ok i => rw [hr] at h; simp at h
        · intro h
          exact absurd h.2 (by omega)
      · rw [if_neg hlt]
        simp
        omega
  · intro hbf
    unfold MemoryBuffer.generate_batch
    rw [hbf]
    simp

/-- Witness for C9: a fresh buffer is unfilled with `buffer_counter = 0`, so
`generate_batch(0)` returns `(None, None)`. -/
theorem generate_batch_none_iff_witness :
    (MemoryBuffer.init 1 1 2 1).generate_batch 0 0 = Except.ok none :=
  (generate_batch_none_iff (MemoryBuffer.init 1 1 2 1) 0 0).1.mpr (by decide)

/-- C5: the retraining iteration calls `model.fit` only when the validation
set is completely filled and `generate_batch` did not return `(None, None)`;
every fit uses the generated batch as training data and the full validation
array as validation data. -/
theorem fit_only_after_val_filled (m : MemoryBuffer) (batch_size r : Nat)
    (fc : FitCall) (h : updateModelIter m batch_size r = Except.ok (some fc)) :
    m.val_data_filled = true ∧
    m.generate_batch batch_size r = Except.ok (some (fc.train_in, fc.train_out)) ∧
    fc.val_in = m.val_data.map Experience.data_in ∧
    fc.val_out = m.val_data.map Experience.data_out := by
  unfold updateModelIter at h
  cases hg : m.generate_batch batch_size r with
  | error e => rw [hg] at h; simp at h
  | ok batch =>
    rw [hg] at h
    cases hvf : m.val_data_filled with
    | false => rw [hvf] at h; simp at h
    | true =>
      rw [hvf] at h
      cases batch with
      | none => simp at h
      | some p =>
        obtain ⟨pin, pout⟩ := p
        simp at h
        subst h
        exact ⟨rfl, rfl, rfl, rfl⟩

/-- Witness for C5: after filling the 1-element validation set and writing
two buffer entries, `updateModelIter` with batch size 1 performs a fit. -/
theorem fit_only_after_val_filled_witness :
    (addAll (MemoryBuffer.init 1 1 2 1)
      [(([1],[2],[3]) : Triple), (([4],[5],[6]) : Triple),
       (([7],[8],[9]) : Triple)]).val_data_filled = true ∧
    (⟨[[4,5]],[[2]],[[1,2]],[[2]]⟩ : FitCall).val_in
      = (addAll (MemoryBuffer.init 1 1 2 1)
        [(([1],[2],[3]) : Triple), (([4],[5],[6]) : Triple),
         (([7],[8],[9]) : Triple)]).val_data.map Experience.data_in := by
  have h := fit_only_after_val_filled
    (addAll (MemoryBuffer.init 1 1 2 1)
      [(([1],[2],[3]) : Triple), (([4],[5],[6]) : Triple),
       (([7],[8],[9]) : Triple)])
    1 0 ⟨[[4,5]],[[2]],[[1,2]],[[2]]⟩ (by decide)
  exact ⟨h.1, h.2.2.1⟩

/-- C6 counterexample: while the validation set is not yet filled the
iteration performs no sleep at all, so with `update_model_dt = 1` and a
computation time of 0 the iteration takes 0 < 1 seconds: the claimed cadence
is not enforced before `val_data_filled` becomes true. -/
theorem update_cadence_counterexample :
    iterSleep false 0 1 = 0 ∧ ¬ ((1 : Rat) ≤ 0 + iterSleep false 0 1) := by
  refine ⟨rfl, ?_⟩
  norm_num [iterSleep]

/-- C6 amended: in every iteration where `val_data_filled` is already true
the total iteration time `time_compute + sleep` is at least
`update_model_dt`, and when the computation finished early the loop sleeps
exactly the remaining `update_model_dt - time_compute`; iterations before
the validation set is filled never sleep. -/
theorem update_cadence (t dt : Rat) :
    dt ≤ t + iterSleep true t dt ∧
    (t < dt → iterSleep true t dt = dt - t) ∧
    (dt ≤ t → iterSleep true t dt = 0) ∧
    iterSleep false t dt = 0 := by
  have h4 : iterSleep false t dt = 0 := by simp [iterSleep]
  by_cases hlt : t < dt
  · have h1 : iterSleep true t dt = dt - t := by simp [iterSleep, hlt]
    exact ⟨by rw [h1]; linarith, fun _ => h1,
      fun hge => absurd hge (not_le.mpr hlt), h4⟩
  · have h1 : iterSleep true t dt = 0 := by simp [iterSleep, hlt]
    push_neg at hlt
    exact ⟨by rw [h1]; linarith, fun hl => absurd hl (not_lt.mpr hlt),
      fun _ => h1, h4⟩

/-- Witness for C6 amended: with `val_data_filled` true, computation time 0
and `update_model_dt = 1`, the iteration sleeps exactly 1 second. -/
theorem update_cadence_witness :
    (1 : Rat) ≤ 0 + iterSleep true 0 1 ∧ iterSleep true 0 1 = 1 - 0 := by
  have h := update_cadence 0 1
  exact ⟨h.1, h.2.1 (by norm_num)⟩
